import Mathlib

/-!
Verification of the numerical integration engine of the mathviz repository
(src/lib/solvers.ts): a classical 4th-order Runge-Kutta stepper over state
vectors of dimension 2 and 3, four derivative-function constructors
(Lorenz, Van der Pol, Damped Pendulum, Roessler), and four solve wrappers
that accumulate trajectories of THREE.Vector3 points.

The embedding idealises the IEEE-754 double arithmetic of the source as
exact rational arithmetic: every scalar is a rational number, `Math.sin`
is modelled as an abstract function parameter (its exact value is
irrelevant to every structural property proved here), and a
`THREE.Vector3` is a triple of rationals.  The `steps` argument is an
integer, matching the `for (let i = 0; i < steps; i++)` loop of the
source, whose body runs `max steps 0` times for integer `steps`.
-/

namespace Mathviz

/-- A 2-dimensional state vector `[number, number]`. -/
abbrev Vec2 : Type := ℚ × ℚ

/-- A 3-dimensional state vector `[number, number, number]`, also the
model of a `THREE.Vector3` trajectory point. -/
abbrev Vec3 : Type := ℚ × ℚ × ℚ

/-- Source type `DerivativeFn2D = (t, state) => [number, number]`. -/
abbrev DerivativeFn2D : Type := ℚ → Vec2 → Vec2

/-- Source type `DerivativeFn3D = (t, state) => [number, number, number]`. -/
abbrev DerivativeFn3D : Type := ℚ → Vec3 → Vec3

/-- Source function `rk4Step2D` from src/lib/solvers.ts, translated component by
component: `k1 = f(t, y)`, `k2 = f(t + dt/2, [y[0] + k1[0]*dt/2, ...])`,
`k3 = f(t + dt/2, [y[0] + k2[0]*dt/2, ...])`,
`k4 = f(t + dt, [y[0] + k3[0]*dt, ...])`, returning
`[y[j] + (k1[j] + 2*k2[j] + 2*k3[j] + k4[j]) * dt / 6]`. -/
def rk4Step2D (f : DerivativeFn2D) (t : ℚ) (y : Vec2) (dt : ℚ) : Vec2 :=
  let k1 := f t y
  let k2 := f (t + dt / 2) (y.1 + k1.1 * dt / 2, y.2 + k1.2 * dt / 2)
  let k3 := f (t + dt / 2) (y.1 + k2.1 * dt / 2, y.2 + k2.2 * dt / 2)
  let k4 := f (t + dt) (y.1 + k3.1 * dt, y.2 + k3.2 * dt)
  (y.1 + (k1.1 + 2 * k2.1 + 2 * k3.1 + k4.1) * dt / 6,
   y.2 + (k1.2 + 2 * k2.2 + 2 * k3.2 + k4.2) * dt / 6)

/-- Source function `rk4Step3D` from src/lib/solvers.ts: the same scheme at width 3. -/
def rk4Step3D (f : DerivativeFn3D) (t : ℚ) (y : Vec3) (dt : ℚ) : Vec3 :=
  let k1 := f t y
  let k2 := f (t + dt / 2)
    (y.1 + k1.1 * dt / 2, y.2.1 + k1.2.1 * dt / 2, y.2.2 + k1.2.2 * dt / 2)
  let k3 := f (t + dt / 2)
    (y.1 + k2.1 * dt / 2, y.2.1 + k2.2.1 * dt / 2, y.2.2 + k2.2.2 * dt / 2)
  let k4 := f (t + dt)
    (y.1 + k3.1 * dt, y.2.1 + k3.2.1 * dt, y.2.2 + k3.2.2 * dt)
  (y.1 + (k1.1 + 2 * k2.1 + 2 * k3.1 + k4.1) * dt / 6,
   y.2.1 + (k1.2.1 + 2 * k2.2.1 + 2 * k3.2.1 + k4.2.1) * dt / 6,
   y.2.2 + (k1.2.2 + 2 * k2.2.2 + 2 * k3.2.2 + k4.2.2) * dt / 6)

/-- Source function `lorenzDerivative(sigma, rho, beta)` from src/lib/solvers.ts:
`(_t, [x, y, z]) => [sigma*(y - x), x*(rho - z) - y, x*y - beta*z]`. -/
def lorenzDerivative (sigma rho beta : ℚ) : DerivativeFn3D :=
  fun _t p =>
    match p with
    | (x, y, z) => (sigma * (y - x), x * (rho - z) - y, x * y - beta * z)

/-- Source function `vanDerPolDerivative(mu)` from src/lib/solvers.ts:
`(_t, [x, y]) => [y, mu*(1 - x*x)*y - x]`. -/
def vanDerPolDerivative (mu : ℚ) : DerivativeFn2D :=
  fun _t p =>
    match p with
    | (x, y) => (y, mu * (1 - x * x) * y - x)

/-- Source function `dampedPendulumDerivative(gamma, omega0)` from src/lib/solvers.ts:
`(_t, [theta, omega]) => [omega, -gamma*omega - omega0*omega0*Math.sin(theta)]`.
`Math.sin` has no exact rational counterpart, so it is modelled as an
abstract function parameter `sin`; no property proved here depends on its
values. -/
def dampedPendulumDerivative (sin : ℚ → ℚ) (gamma omega0 : ℚ) : DerivativeFn2D :=
  fun _t p =>
    match p with
    | (theta, omega) => (omega, -gamma * omega - omega0 * omega0 * sin theta)

/-- Source function `rosslerDerivative(a, b, c)` from src/lib/solvers.ts:
`(_t, [x, y, z]) => [-y - z, x + a*y, b + z*(x - c)]`. -/
def rosslerDerivative (a b c : ℚ) : DerivativeFn3D :=
  fun _t p =>
    match p with
    | (x, y, z) => (-y - z, x + a * y, b + z * (x - c))

/-- Source expression `new THREE.Vector3(state[0], state[1], 0)`: how the two 2-dimensional
solvers materialise a 2D state as a 3D trajectory point. -/
def lift3 (s : Vec2) : Vec3 := (s.1, s.2, 0)

/-- The step loop shared verbatim by `solveVanDerPol` and
`solveDampedPendulum`:
`for (i = 0; i < steps; i++) { state = rk4Step2D(f, t, state, dt); t += dt;
points.push(new THREE.Vector3(state[0], state[1], 0)); }`,
returning the list of points pushed by the loop (the initial point is
pushed by the wrapper before the loop). -/
def solveSteps2D (f : DerivativeFn2D) (state : Vec2) (t dt : ℚ) : ℕ → List Vec3
  | 0 => []
  | n + 1 =>
    let s := rk4Step2D f t state dt
    lift3 s :: solveSteps2D f s (t + dt) dt n

/-- The step loop shared verbatim by `solveLorenz` and `solveRossler`:
`for (i = 0; i < steps; i++) { state = rk4Step3D(f, t, state, dt); t += dt;
points.push(new THREE.Vector3(state[0], state[1], state[2])); }`,
returning the list of points pushed by the loop. -/
def solveSteps3D (f : DerivativeFn3D) (state : Vec3) (t dt : ℚ) : ℕ → List Vec3
  | 0 => []
  | n + 1 =>
    let s := rk4Step3D f t state dt
    s :: solveSteps3D f s (t + dt) dt n

/-- Source function `solveLorenz(params)` from src/lib/solvers.ts: pushes the initial
state, then runs the step loop starting from `t = 0`.  The loop body runs
`steps.toNat` times, matching `for (let i = 0; i < steps; i++)` for an
integer `steps` (zero iterations when `steps <= 0`). -/
def solveLorenz (sigma rho beta x0 y0 z0 dt : ℚ) (steps : ℤ) : List Vec3 :=
  (x0, y0, z0) ::
    solveSteps3D (lorenzDerivative sigma rho beta) (x0, y0, z0) 0 dt steps.toNat

/-- Source function `solveVanDerPol(params)` from src/lib/solvers.ts. -/
def solveVanDerPol (mu x0 y0 dt : ℚ) (steps : ℤ) : List Vec3 :=
  lift3 (x0, y0) ::
    solveSteps2D (vanDerPolDerivative mu) (x0, y0) 0 dt steps.toNat

/-- Source function `solveDampedPendulum(params)` from src/lib/solvers.ts (with the
abstract `sin` threaded through to the derivative). -/
def solveDampedPendulum (sin : ℚ → ℚ) (gamma omega0 theta0 omegaInit dt : ℚ)
    (steps : ℤ) : List Vec3 :=
  lift3 (theta0, omegaInit) ::
    solveSteps2D (dampedPendulumDerivative sin gamma omega0) (theta0, omegaInit)
      0 dt steps.toNat

/-- Source function `solveRossler(params)` from src/lib/solvers.ts. -/
def solveRossler (a b c x0 y0 z0 dt : ℚ) (steps : ℤ) : List Vec3 :=
  (x0, y0, z0) ::
    solveSteps3D (rosslerDerivative a b c) (x0, y0, z0) 0 dt steps.toNat

/-- The RK4 scheme exactly as the specification states it, over an
arbitrary rational vector space (so that one definition covers both
widths):
`k1 = f(t, y)`, `k2 = f(t + dt/2, y + k1*dt/2)`,
`k3 = f(t + dt/2, y + k2*dt/2)`, `k4 = f(t + dt, y + k3*dt)`,
`y' = y + (k1 + 2*k2 + 2*k3 + k4) * dt/6`. -/
def rk4SpecStep {V : Type} [AddCommGroup V] [Module ℚ V]
    (f : ℚ → V → V) (t : ℚ) (y : V) (dt : ℚ) : V :=
  let k1 := f t y
  let k2 := f (t + dt / 2) (y + (dt / 2) • k1)
  let k3 := f (t + dt / 2) (y + (dt / 2) • k2)
  let k4 := f (t + dt) (y + dt • k3)
  y + (dt / 6) • (k1 + (2 : ℚ) • k2 + (2 : ℚ) • k3 + k4)

/-- The 2-dimensional internal state after `n` loop iterations starting
from state `s` at time `t` (the value of the mutable `state` variable). -/
def states2D (f : DerivativeFn2D) (s : Vec2) (t dt : ℚ) : ℕ → Vec2
  | 0 => s
  | n + 1 => states2D f (rk4Step2D f t s dt) (t + dt) dt n

/-- The 3-dimensional internal state after `n` loop iterations starting
from state `s` at time `t`. -/
def states3D (f : DerivativeFn3D) (s : Vec3) (t dt : ℚ) : ℕ → Vec3
  | 0 => s
  | n + 1 => states3D f (rk4Step3D f t s dt) (t + dt) dt n

lemma solveSteps2D_length (f : DerivativeFn2D) (dt : ℚ) :
    ∀ (n : ℕ) (s : Vec2) (t : ℚ), (solveSteps2D f s t dt n).length = n := by
  intro n
  induction n with
  | zero => intro s t; rfl
  | succ m ih =>
    intro s t
    simp only [solveSteps2D, List.length_cons, ih]

lemma solveSteps3D_length (f : DerivativeFn3D) (dt : ℚ) :
    ∀ (n : ℕ) (s : Vec3) (t : ℚ), (solveSteps3D f s t dt n).length = n := by
  intro n
  induction n with
  | zero => intro s t; rfl
  | succ m ih =>
    intro s t
    simp only [solveSteps3D, List.length_cons, ih]

lemma solveSteps2D_getD (f : DerivativeFn2D) (dt : ℚ) (d : Vec3) :
    ∀ (i n : ℕ) (s : Vec2) (t : ℚ), i ≤ n →
      (lift3 s :: solveSteps2D f s t dt n).getD i d = lift3 (states2D f s t dt i) := by
  intro i
  induction i with
  | zero => intro n s t _; rfl
  | succ j ih =>
    intro n s t h
    match n with
    | 0 => exact absurd h (by omega)
    | m + 1 =>
      show (solveSteps2D f s t dt (m + 1)).getD j d = _
      simp only [solveSteps2D]
      exact ih m (rk4Step2D f t s dt) (t + dt) (by omega)

lemma solveSteps3D_getD (f : DerivativeFn3D) (dt : ℚ) (d : Vec3) :
    ∀ (i n : ℕ) (s : Vec3) (t : ℚ), i ≤ n →
      (s :: solveSteps3D f s t dt n).getD i d = states3D f s t dt i := by
  intro i
  induction i with
  | zero => intro n s t _; rfl
  | succ j ih =>
    intro n s t h
    match n with
    | 0 => exact absurd h (by omega)
    | m + 1 =>
      show (solveSteps3D f s t dt (m + 1)).getD j d = _
      simp only [solveSteps3D]
      exact ih m (rk4Step3D f t s dt) (t + dt) (by omega)

lemma states2D_succ (f : DerivativeFn2D) (dt : ℚ) :
    ∀ (i : ℕ) (s : Vec2) (t : ℚ),
      states2D f s t dt (i + 1) = rk4Step2D f (t + i * dt) (states2D f s t dt i) dt := by
  intro i
  induction i with
  | zero =>
    intro s t
    show states2D f (rk4Step2D f t s dt) (t + dt) dt 0 = _
    simp only [states2D]
    congr 1
    push_cast
    ring
  | succ j ih =>
    intro s t
    show states2D f (rk4Step2D f t s dt) (t + dt) dt (j + 1) = _
    rw [ih (rk4Step2D f t s dt) (t + dt)]
    show rk4Step2D f (t + dt + j * dt) (states2D f s t dt (j + 1)) dt = _
    congr 1
    push_cast
    ring

lemma states3D_succ (f : DerivativeFn3D) (dt : ℚ) :
    ∀ (i : ℕ) (s : Vec3) (t : ℚ),
      states3D f s t dt (i + 1) = rk4Step3D f (t + i * dt) (states3D f s t dt i) dt := by
  intro i
  induction i with
  | zero =>
    intro s t
    show states3D f (rk4Step3D f t s dt) (t + dt) dt 0 = _
    simp only [states3D]
    congr 1
    push_cast
    ring
  | succ j ih =>
    intro s t
    show states3D f (rk4Step3D f t s dt) (t + dt) dt (j + 1) = _
    rw [ih (rk4Step3D f t s dt) (t + dt)]
    show rk4Step3D f (t + dt + j * dt) (states3D f s t dt (j + 1)) dt = _
    congr 1
    push_cast
    ring

lemma rk4Step2D_dt_zero (f : DerivativeFn2D) (t : ℚ) (y : Vec2) :
    rk4Step2D f t y 0 = y := by
  simp only [rk4Step2D]
  refine Prod.ext ?_ ?_ <;> simp

lemma rk4Step3D_dt_zero (f : DerivativeFn3D) (t : ℚ) (y : Vec3) :
    rk4Step3D f t y 0 = y := by
  simp only [rk4Step3D]
  refine Prod.ext ?_ (Prod.ext ?_ ?_) <;> simp

lemma solveSteps2D_dt_zero (f : DerivativeFn2D) :
    ∀ (n : ℕ) (s : Vec2) (t : ℚ),
      solveSteps2D f s t 0 n = List.replicate n (lift3 s) := by
  intro n
  induction n with
  | zero => intro s t; rfl
  | succ m ih =>
    intro s t
    simp only [solveSteps2D, rk4Step2D_dt_zero, List.replicate_succ, ih]

lemma solveSteps3D_dt_zero (f : DerivativeFn3D) :
    ∀ (n : ℕ) (s : Vec3) (t : ℚ),
      solveSteps3D f s t 0 n = List.replicate n s := by
  intro n
  induction n with
  | zero => intro s t; rfl
  | succ m ih =>
    intro s t
    simp only [solveSteps3D, rk4Step3D_dt_zero, List.replicate_succ, ih]

lemma rk4Step2D_time_indep (f : DerivativeFn2D)
    (hf : ∀ (t1 t2 : ℚ) (y : Vec2), f t1 y = f t2 y) (t t' : ℚ) (y : Vec2) (dt : ℚ) :
    rk4Step2D f t y dt = rk4Step2D f t' y dt := by
  simp only [rk4Step2D]
  rw [hf t t', hf (t + dt / 2) (t' + dt / 2), hf (t + dt / 2) (t' + dt / 2),
    hf (t + dt) (t' + dt)]

lemma rk4Step3D_time_indep (f : DerivativeFn3D)
    (hf : ∀ (t1 t2 : ℚ) (y : Vec3), f t1 y = f t2 y) (t t' : ℚ) (y : Vec3) (dt : ℚ) :
    rk4Step3D f t y dt = rk4Step3D f t' y dt := by
  simp only [rk4Step3D]
  rw [hf t t', hf (t + dt / 2) (t' + dt / 2), hf (t + dt / 2) (t' + dt / 2),
    hf (t + dt) (t' + dt)]

lemma solveSteps2D_time_indep (f : DerivativeFn2D)
    (hf : ∀ (t1 t2 : ℚ) (y : Vec2), f t1 y = f t2 y) (dt : ℚ) :
    ∀ (n : ℕ) (s : Vec2) (t t' : ℚ),
      solveSteps2D f s t dt n = solveSteps2D f s t' dt n := by
  intro n
  induction n with
  | zero => intro s t t'; rfl
  | succ m ih =>
    intro s t t'
    simp only [solveSteps2D]
    rw [rk4Step2D_time_indep f hf t t' s dt]
    exact congrArg _ (ih (rk4Step2D f t' s dt) (t + dt) (t' + dt))

lemma solveSteps3D_time_indep (f : DerivativeFn3D)
    (hf : ∀ (t1 t2 : ℚ) (y : Vec3), f t1 y = f t2 y) (dt : ℚ) :
    ∀ (n : ℕ) (s : Vec3) (t t' : ℚ),
      solveSteps3D f s t dt n = solveSteps3D f s t' dt n := by
  intro n
  induction n with
  | zero => intro s t t'; rfl
  | succ m ih =>
    intro s t t'
    simp only [solveSteps3D]
    rw [rk4Step3D_time_indep f hf t t' s dt]
    exact congrArg _ (ih (rk4Step3D f t' s dt) (t + dt) (t' + dt))

lemma solveSteps2D_drop (f : DerivativeFn2D) (dt : ℚ) :
    ∀ (i n : ℕ) (s : Vec2) (t : ℚ), i ≤ n →
      (lift3 s :: solveSteps2D f s t dt n).drop i =
        lift3 (states2D f s t dt i) ::
          solveSteps2D f (states2D f s t dt i) (t + i * dt) dt (n - i) := by
  intro i
  induction i with
  | zero =>
    intro n s t _
    simp only [List.drop_zero, states2D, Nat.sub_zero, Nat.cast_zero, zero_mul,
      add_zero]
  | succ j ih =>
    intro n s t h
    match n with
    | 0 => exact absurd h (by omega)
    | m + 1 =>
      show (solveSteps2D f s t dt (m + 1)).drop j = _
      simp only [solveSteps2D]
      rw [ih m (rk4Step2D f t s dt) (t + dt) (by omega)]
      have hst : states2D f (rk4Step2D f t s dt) (t + dt) dt j =
          states2D f s t dt (j + 1) := rfl
      rw [hst]
      have hm : m - j = m + 1 - (j + 1) := by omega
      rw [hm]
      have htt : t + dt + (j : ℚ) * dt = t + ((j : ℕ) + 1 : ℕ) * dt := by
        push_cast
        ring
      rw [htt]

lemma solveSteps3D_drop (f : DerivativeFn3D) (dt : ℚ) :
    ∀ (i n : ℕ) (s : Vec3) (t : ℚ), i ≤ n →
      (s :: solveSteps3D f s t dt n).drop i =
        states3D f s t dt i ::
          solveSteps3D f (states3D f s t dt i) (t + i * dt) dt (n - i) := by
  intro i
  induction i with
  | zero =>
    intro n s t _
    simp only [List.drop_zero, states3D, Nat.sub_zero, Nat.cast_zero, zero_mul,
      add_zero]
  | succ j ih =>
    intro n s t h
    match n with
    | 0 => exact absurd h (by omega)
    | m + 1 =>
      show (solveSteps3D f s t dt (m + 1)).drop j = _
      simp only [solveSteps3D]
      rw [ih m (rk4Step3D f t s dt) (t + dt) (by omega)]
      have hst : states3D f (rk4Step3D f t s dt) (t + dt) dt j =
          states3D f s t dt (j + 1) := rfl
      rw [hst]
      have hm : m - j = m + 1 - (j + 1) := by omega
      rw [hm]
      have htt : t + dt + (j : ℚ) * dt = t + ((j : ℕ) + 1 : ℕ) * dt := by
        push_cast
        ring
      rw [htt]

lemma vec2_half (y k : Vec2) (dt : ℚ) :
    ((y.1 + k.1 * dt / 2, y.2 + k.2 * dt / 2) : Vec2) = y + (dt / 2) • k := by
  refine Prod.ext ?_ ?_ <;> simp [smul_eq_mul] <;> ring

lemma vec2_full (y k : Vec2) (dt : ℚ) :
    ((y.1 + k.1 * dt, y.2 + k.2 * dt) : Vec2) = y + dt • k := by
  refine Prod.ext ?_ ?_ <;> simp [smul_eq_mul] <;> ring

lemma vec2_comb (y k1 k2 k3 k4 : Vec2) (dt : ℚ) :
    ((y.1 + (k1.1 + 2 * k2.1 + 2 * k3.1 + k4.1) * dt / 6,
      y.2 + (k1.2 + 2 * k2.2 + 2 * k3.2 + k4.2) * dt / 6) : Vec2) =
      y + (dt / 6) • (k1 + (2 : ℚ) • k2 + (2 : ℚ) • k3 + k4) := by
  refine Prod.ext ?_ ?_ <;> simp [smul_eq_mul] <;> ring

lemma vec3_half (y k : Vec3) (dt : ℚ) :
    ((y.1 + k.1 * dt / 2, y.2.1 + k.2.1 * dt / 2, y.2.2 + k.2.2 * dt / 2) : Vec3) =
      y + (dt / 2) • k := by
  refine Prod.ext ?_ (Prod.ext ?_ ?_) <;> simp [smul_eq_mul] <;> ring

lemma vec3_full (y k : Vec3) (dt : ℚ) :
    ((y.1 + k.1 * dt, y.2.1 + k.2.1 * dt, y.2.2 + k.2.2 * dt) : Vec3) =
      y + dt • k := by
  refine Prod.ext ?_ (Prod.ext ?_ ?_) <;> simp [smul_eq_mul] <;> ring

lemma vec3_comb (y k1 k2 k3 k4 : Vec3) (dt : ℚ) :
    ((y.1 + (k1.1 + 2 * k2.1 + 2 * k3.1 + k4.1) * dt / 6,
      y.2.1 + (k1.2.1 + 2 * k2.2.1 + 2 * k3.2.1 + k4.2.1) * dt / 6,
      y.2.2 + (k1.2.2 + 2 * k2.2.2 + 2 * k3.2.2 + k4.2.2) * dt / 6) : Vec3) =
      y + (dt / 6) • (k1 + (2 : ℚ) • k2 + (2 : ℚ) • k3 + k4) := by
  refine Prod.ext ?_ (Prod.ext ?_ ?_) <;> simp [smul_eq_mul] <;> ring

/-- Claim C1: for every derivative function `f`, time `t`, state `y`
(dimension 2 for `rk4Step2D`, dimension 3 for `rk4Step3D`) and step size
`dt`, the integrator step returns exactly
`y + (k1 + 2*k2 + 2*k3 + k4) * dt/6` with `k1 = f(t, y)`,
`k2 = f(t + dt/2, y + k1*dt/2)`, `k3 = f(t + dt/2, y + k2*dt/2)`,
`k4 = f(t + dt, y + k3*dt)`, element-wise; the scheme is the same for
both dimensions (`rk4SpecStep` is a single definition over an arbitrary
rational vector space), differing only in vector width. -/
theorem claim_C1_rk4_step_matches_spec_scheme :
    (∀ (f : DerivativeFn2D) (t : ℚ) (y : Vec2) (dt : ℚ),
      rk4Step2D f t y dt = rk4SpecStep f t y dt) ∧
    (∀ (f : DerivativeFn3D) (t : ℚ) (y : Vec3) (dt : ℚ),
      rk4Step3D f t y dt = rk4SpecStep f t y dt) := by
  constructor
  · intro f t y dt
    simp only [rk4Step2D, rk4SpecStep]
    generalize f t y = k1
    rw [vec2_half y k1 dt]
    generalize f (t + dt / 2) (y + (dt / 2) • k1) = k2
    rw [vec2_half y k2 dt]
    generalize f (t + dt / 2) (y + (dt / 2) • k2) = k3
    rw [vec2_full y k3 dt]
    generalize f (t + dt) (y + dt • k3) = k4
    exact vec2_comb y k1 k2 k3 k4 dt
  · intro f t y dt
    simp only [rk4Step3D, rk4SpecStep]
    generalize f t y = k1
    rw [vec3_half y k1 dt]
    generalize f (t + dt / 2) (y + (dt / 2) • k1) = k2
    rw [vec3_half y k2 dt]
    generalize f (t + dt / 2) (y + (dt / 2) • k2) = k3
    rw [vec3_full y k3 dt]
    generalize f (t + dt) (y + dt • k3) = k4
    exact vec3_comb y k1 k2 k3 k4 dt

/-- Claim C2: for every time argument and every state, the four
derivative constructors return exactly the vector fields of the table:
Lorenz `(sigma*(y - x), x*(rho - z) - y, x*y - beta*z)`, Van der Pol
`(y, mu*(1 - x^2)*y - x)`, damped pendulum
`(omega, -gamma*omega - omega0^2*sin(theta))`, Roessler
`(-y - z, x + a*y, b + z*(x - c))`. -/
theorem claim_C2_derivative_constructors_match_table :
    (∀ (sigma rho beta t x y z : ℚ),
      lorenzDerivative sigma rho beta t (x, y, z) =
        (sigma * (y - x), x * (rho - z) - y, x * y - beta * z)) ∧
    (∀ (mu t x y : ℚ),
      vanDerPolDerivative mu t (x, y) = (y, mu * (1 - x ^ 2) * y - x)) ∧
    (∀ (sin : ℚ → ℚ) (gamma omega0 t theta omega : ℚ),
      dampedPendulumDerivative sin gamma omega0 t (theta, omega) =
        (omega, -gamma * omega - omega0 ^ 2 * sin theta)) ∧
    (∀ (a b c t x y z : ℚ),
      rosslerDerivative a b c t (x, y, z) = (-y - z, x + a * y, b + z * (x - c))) := by
  refine ⟨?_, ?_, ?_, ?_⟩
  · intro sigma rho beta t x y z
    rfl
  · intro mu t x y
    refine Prod.ext rfl ?_
    show mu * (1 - x * x) * y - x = mu * (1 - x ^ 2) * y - x
    ring
  · intro sin gamma omega0 t theta omega
    refine Prod.ext rfl ?_
    show -gamma * omega - omega0 * omega0 * sin theta =
      -gamma * omega - omega0 ^ 2 * sin theta
    ring
  · intro a b c t x y z
    rfl

/-- Claim C4: the first point (index 0) of every returned trajectory
equals the supplied initial state exactly: `(x0, y0, z0)` for
`solveLorenz` and `solveRossler`, `(x0, y0, 0)` for `solveVanDerPol`, and
`(theta0, omegaInit, 0)` for `solveDampedPendulum`, with the third
coordinate of the 2-dimensional systems exactly `0`. -/
theorem claim_C4_first_point_is_initial_state :
    (∀ (sigma rho beta x0 y0 z0 dt : ℚ) (steps : ℤ),
      (solveLorenz sigma rho beta x0 y0 z0 dt steps).head? = some (x0, y0, z0)) ∧
    (∀ (mu x0 y0 dt : ℚ) (steps : ℤ),
      (solveVanDerPol mu x0 y0 dt steps).head? = some (x0, y0, 0)) ∧
    (∀ (sin : ℚ → ℚ) (gamma omega0 theta0 omegaInit dt : ℚ) (steps : ℤ),
      (solveDampedPendulum sin gamma omega0 theta0 omegaInit dt steps).head? =
        some (theta0, omegaInit, 0)) ∧
    (∀ (a b c x0 y0 z0 dt : ℚ) (steps : ℤ),
      (solveRossler a b c x0 y0 z0 dt steps).head? = some (x0, y0, z0)) := by
  refine ⟨?_, ?_, ?_, ?_⟩ <;> intros <;> rfl

/-- Claim C3: for every non-negative integer `steps` (and any parameters,
initial state and `dt`), each of the four solve functions returns a
trajectory containing exactly `steps + 1` points. -/
theorem claim_C3_trajectory_has_steps_plus_one_points
    (sigma rho beta x0 y0 z0 mu vx0 vy0 : ℚ) (sin : ℚ → ℚ)
    (gamma omega0 theta0 omegaInit a b c rx0 ry0 rz0 dt : ℚ)
    (steps : ℤ) (h : 0 ≤ steps) :
    ((solveLorenz sigma rho beta x0 y0 z0 dt steps).length : ℤ) = steps + 1 ∧
    ((solveVanDerPol mu vx0 vy0 dt steps).length : ℤ) = steps + 1 ∧
    ((solveDampedPendulum sin gamma omega0 theta0 omegaInit dt steps).length : ℤ) =
      steps + 1 ∧
    ((solveRossler a b c rx0 ry0 rz0 dt steps).length : ℤ) = steps + 1 := by
  refine ⟨?_, ?_, ?_, ?_⟩ <;>
    simp only [solveLorenz, solveVanDerPol, solveDampedPendulum, solveRossler,
      List.length_cons, solveSteps2D_length, solveSteps3D_length] <;>
    omega

theorem claim_C3_trajectory_has_steps_plus_one_points_witness :
    (0 : ℤ) ≤ 2 ∧
    (((solveLorenz 10 28 (8 / 3) 1 1 1 (1 / 100) 2).length : ℤ) = 2 + 1 ∧
     ((solveVanDerPol 1 2 0 (1 / 100) 2).length : ℤ) = 2 + 1 ∧
     ((solveDampedPendulum (fun q => q) (1 / 10) 1 1 0 (1 / 100) 2).length : ℤ) =
       2 + 1 ∧
     ((solveRossler (1 / 5) (1 / 5) (57 / 10) 1 1 1 (1 / 100) 2).length : ℤ) =
       2 + 1) :=
  ⟨by decide,
    claim_C3_trajectory_has_steps_plus_one_points 10 28 (8 / 3) 1 1 1 1 2 0
      (fun q => q) (1 / 10) 1 1 0 (1 / 5) (1 / 5) (57 / 10) 1 1 1 (1 / 100) 2
      (by decide)⟩

/-- Claim C6: every solve entry point is total and never fails.  In the
embedding each solver is a total function: for all parameters and initial
state, every `dt` (including zero and negative values) and every integer
`steps`, the call returns a trajectory of exactly `steps.toNat + 1`
points — no rejection, no error path, no early stop (non-finite doubles
do not exist in the exact-rational idealisation, so the propagation
clause is vacuous here). -/
theorem claim_C6_solvers_total_never_fail
    (sigma rho beta x0 y0 z0 mu vx0 vy0 : ℚ) (sin : ℚ → ℚ)
    (gamma omega0 theta0 omegaInit a b c rx0 ry0 rz0 dt : ℚ) (steps : ℤ) :
    (solveLorenz sigma rho beta x0 y0 z0 dt steps).length = steps.toNat + 1 ∧
    (solveVanDerPol mu vx0 vy0 dt steps).length = steps.toNat + 1 ∧
    (solveDampedPendulum sin gamma omega0 theta0 omegaInit dt steps).length =
      steps.toNat + 1 ∧
    (solveRossler a b c rx0 ry0 rz0 dt steps).length = steps.toNat + 1 := by
  refine ⟨?_, ?_, ?_, ?_⟩ <;>
    simp only [solveLorenz, solveVanDerPol, solveDampedPendulum, solveRossler,
      List.length_cons, solveSteps2D_length, solveSteps3D_length]

/-- Claim C8: with `dt = 0` every solve call yields a constant
trajectory: all `steps.toNat + 1` points equal the initial point (the
RK4 step with `dt = 0` is the identity). -/
theorem claim_C8_dt_zero_yields_constant_trajectory
    (sigma rho beta x0 y0 z0 mu vx0 vy0 : ℚ) (sin : ℚ → ℚ)
    (gamma omega0 theta0 omegaInit a b c rx0 ry0 rz0 : ℚ) (steps : ℤ) :
    solveLorenz sigma rho beta x0 y0 z0 0 steps =
      List.replicate (steps.toNat + 1) (x0, y0, z0) ∧
    solveVanDerPol mu vx0 vy0 0 steps =
      List.replicate (steps.toNat + 1) (vx0, vy0, 0) ∧
    solveDampedPendulum sin gamma omega0 theta0 omegaInit 0 steps =
      List.replicate (steps.toNat + 1) (theta0, omegaInit, 0) ∧
    solveRossler a b c rx0 ry0 rz0 0 steps =
      List.replicate (steps.toNat + 1) (rx0, ry0, rz0) := by
  refine ⟨?_, ?_, ?_, ?_⟩ <;>
    simp only [solveLorenz, solveVanDerPol, solveDampedPendulum, solveRossler,
      solveSteps2D_dt_zero, solveSteps3D_dt_zero, List.replicate_succ] <;>
    rfl

/-- Claim C9: for every negative integer `steps`, each of the four solve
functions returns a trajectory containing exactly one point — the initial
state — without error: the step loop body never executes. -/
theorem claim_C9_negative_steps_single_point
    (sigma rho beta x0 y0 z0 mu vx0 vy0 : ℚ) (sin : ℚ → ℚ)
    (gamma omega0 theta0 omegaInit a b c rx0 ry0 rz0 dt : ℚ)
    (steps : ℤ) (h : steps < 0) :
    solveLorenz sigma rho beta x0 y0 z0 dt steps = [(x0, y0, z0)] ∧
    solveVanDerPol mu vx0 vy0 dt steps = [(vx0, vy0, 0)] ∧
    solveDampedPendulum sin gamma omega0 theta0 omegaInit dt steps =
      [(theta0, omegaInit, 0)] ∧
    solveRossler a b c rx0 ry0 rz0 dt steps = [(rx0, ry0, rz0)] := by
  have h0 : steps.toNat = 0 := by omega
  refine ⟨?_, ?_, ?_, ?_⟩ <;>
    simp only [solveLorenz, solveVanDerPol, solveDampedPendulum, solveRossler,
      h0, solveSteps2D, solveSteps3D] <;>
    rfl

theorem claim_C9_negative_steps_single_point_witness :
    (-1 : ℤ) < 0 ∧
    (solveLorenz 10 28 (8 / 3) 1 1 1 (1 / 100) (-1) = [(1, 1, 1)] ∧
     solveVanDerPol 1 2 0 (1 / 100) (-1) = [(2, 0, 0)] ∧
     solveDampedPendulum (fun q => q) (1 / 10) 1 1 0 (1 / 100) (-1) =
       [(1, 0, 0)] ∧
     solveRossler (1 / 5) (1 / 5) (57 / 10) 1 1 1 (1 / 100) (-1) =
       [(1, 1, 1)]) :=
  ⟨by decide,
    claim_C9_negative_steps_single_point 10 28 (8 / 3) 1 1 1 1 2 0
      (fun q => q) (1 / 10) 1 1 0 (1 / 5) (1 / 5) (57 / 10) 1 1 1 (1 / 100) (-1)
      (by decide)⟩

lemma solveSteps2D_third_coord (f : DerivativeFn2D) (dt : ℚ) :
    ∀ (n : ℕ) (s : Vec2) (t : ℚ) (p : Vec3),
      p ∈ solveSteps2D f s t dt n → p.2.2 = 0 := by
  intro n
  induction n with
  | zero =>
    intro s t p hp
    simp only [solveSteps2D, List.not_mem_nil] at hp
  | succ m ih =>
    intro s t p hp
    simp only [solveSteps2D, List.mem_cons] at hp
    rcases hp with hp | hp
    · rw [hp]; rfl
    · exact ih (rk4Step2D f t s dt) (t + dt) p hp

/-- Claim C7: every point of a `solveVanDerPol` or `solveDampedPendulum`
trajectory has third coordinate exactly `0` — each emitted point gets
exactly one trailing zero, uniformly. -/
theorem claim_C7_two_dimensional_points_have_zero_third_coordinate
    (mu vx0 vy0 : ℚ) (sin : ℚ → ℚ)
    (gamma omega0 theta0 omegaInit dt : ℚ) (steps : ℤ) :
    (∀ p ∈ solveVanDerPol mu vx0 vy0 dt steps, p.2.2 = 0) ∧
    (∀ p ∈ solveDampedPendulum sin gamma omega0 theta0 omegaInit dt steps,
      p.2.2 = 0) := by
  constructor
  · intro p hp
    simp only [solveVanDerPol, List.mem_cons] at hp
    rcases hp with hp | hp
    · rw [hp]; rfl
    · exact solveSteps2D_third_coord _ dt steps.toNat (vx0, vy0) 0 p hp
  · intro p hp
    simp only [solveDampedPendulum, List.mem_cons] at hp
    rcases hp with hp | hp
    · rw [hp]; rfl
    · exact solveSteps2D_third_coord _ dt steps.toNat (theta0, omegaInit) 0 p hp

theorem claim_C7_two_dimensional_points_have_zero_third_coordinate_witness :
    (((1, 2, 0) : Vec3) ∈ solveVanDerPol 1 1 2 0 1 ∧
      ((1, 2, 0) : Vec3).2.2 = 0) ∧
    (((3, 4, 0) : Vec3) ∈ solveDampedPendulum (fun q => q) 1 1 3 4 0 1 ∧
      ((3, 4, 0) : Vec3).2.2 = 0) :=
  ⟨⟨by decide,
    (claim_C7_two_dimensional_points_have_zero_third_coordinate 1 1 2
      (fun q => q) 1 1 3 4 0 1).1 (1, 2, 0) (by decide)⟩,
   ⟨by decide,
    (claim_C7_two_dimensional_points_have_zero_third_coordinate 1 1 2
      (fun q => q) 1 1 3 4 0 1).2 (3, 4, 0) (by decide)⟩⟩

lemma lift3_proj (s : Vec2) : (((lift3 s).1, (lift3 s).2.1) : Vec2) = s := rfl

lemma vec3_eta (p : Vec3) : ((p.1, p.2.1, p.2.2) : Vec3) = p := rfl

/-- Claim C5: for every system, every `steps`, and every `i` with
`1 <= i <= steps`, the `i`-th trajectory point equals the RK4 step applied
to the `(i-1)`-th point with the system derivative, step size `dt`, and
time `t = (i-1)*dt` (for the 2-dimensional systems the step acts on the
first two coordinates of the previous point and the result is
re-materialised with a trailing zero). -/
theorem claim_C5_points_follow_rk4_recurrence
    (sigma rho beta x0 y0 z0 mu vx0 vy0 : ℚ) (sin : ℚ → ℚ)
    (gamma omega0 theta0 omegaInit a b c rx0 ry0 rz0 dt : ℚ)
    (steps : ℤ) (i : ℕ) (h1 : 1 ≤ i) (h2 : (i : ℤ) ≤ steps) :
    (solveLorenz sigma rho beta x0 y0 z0 dt steps).getD i (0, 0, 0) =
      rk4Step3D (lorenzDerivative sigma rho beta) (((i : ℚ) - 1) * dt)
        ((solveLorenz sigma rho beta x0 y0 z0 dt steps).getD (i - 1) (0, 0, 0))
        dt ∧
    (solveVanDerPol mu vx0 vy0 dt steps).getD i (0, 0, 0) =
      lift3 (rk4Step2D (vanDerPolDerivative mu) (((i : ℚ) - 1) * dt)
        (((solveVanDerPol mu vx0 vy0 dt steps).getD (i - 1) (0, 0, 0)).1,
         ((solveVanDerPol mu vx0 vy0 dt steps).getD (i - 1) (0, 0, 0)).2.1)
        dt) ∧
    (solveDampedPendulum sin gamma omega0 theta0 omegaInit dt steps).getD i
        (0, 0, 0) =
      lift3 (rk4Step2D (dampedPendulumDerivative sin gamma omega0)
        (((i : ℚ) - 1) * dt)
        (((solveDampedPendulum sin gamma omega0 theta0 omegaInit dt
            steps).getD (i - 1) (0, 0, 0)).1,
         ((solveDampedPendulum sin gamma omega0 theta0 omegaInit dt
            steps).getD (i - 1) (0, 0, 0)).2.1)
        dt) ∧
    (solveRossler a b c rx0 ry0 rz0 dt steps).getD i (0, 0, 0) =
      rk4Step3D (rosslerDerivative a b c) (((i : ℚ) - 1) * dt)
        ((solveRossler a b c rx0 ry0 rz0 dt steps).getD (i - 1) (0, 0, 0))
        dt := by
  obtain ⟨j, rfl⟩ : ∃ j, i = j + 1 := ⟨i - 1, by omega⟩
  have hj1 : j + 1 ≤ steps.toNat := by omega
  have hj0 : j ≤ steps.toNat := by omega
  refine ⟨?_, ?_, ?_, ?_⟩
  · simp only [solveLorenz, Nat.add_sub_cancel]
    rw [solveSteps3D_getD (lorenzDerivative sigma rho beta) dt (0, 0, 0)
      (j + 1) steps.toNat (x0, y0, z0) 0 hj1]
    rw [solveSteps3D_getD (lorenzDerivative sigma rho beta) dt (0, 0, 0)
      j steps.toNat (x0, y0, z0) 0 hj0]
    rw [states3D_succ (lorenzDerivative sigma rho beta) dt j (x0, y0, z0) 0]
    congr 1
    push_cast
    ring
  · simp only [solveVanDerPol, Nat.add_sub_cancel]
    rw [solveSteps2D_getD (vanDerPolDerivative mu) dt (0, 0, 0)
      (j + 1) steps.toNat (vx0, vy0) 0 hj1]
    rw [solveSteps2D_getD (vanDerPolDerivative mu) dt (0, 0, 0)
      j steps.toNat (vx0, vy0) 0 hj0]
    rw [lift3_proj]
    rw [states2D_succ (vanDerPolDerivative mu) dt j (vx0, vy0) 0]
    congr 2
    push_cast
    ring
  · simp only [solveDampedPendulum, Nat.add_sub_cancel]
    rw [solveSteps2D_getD (dampedPendulumDerivative sin gamma omega0) dt
      (0, 0, 0) (j + 1) steps.toNat (theta0, omegaInit) 0 hj1]
    rw [solveSteps2D_getD (dampedPendulumDerivative sin gamma omega0) dt
      (0, 0, 0) j steps.toNat (theta0, omegaInit) 0 hj0]
    rw [lift3_proj]
    rw [states2D_succ (dampedPendulumDerivative sin gamma omega0) dt j
      (theta0, omegaInit) 0]
    congr 2
    push_cast
    ring
  · simp only [solveRossler, Nat.add_sub_cancel]
    rw [solveSteps3D_getD (rosslerDerivative a b c) dt (0, 0, 0)
      (j + 1) steps.toNat (rx0, ry0, rz0) 0 hj1]
    rw [solveSteps3D_getD (rosslerDerivative a b c) dt (0, 0, 0)
      j steps.toNat (rx0, ry0, rz0) 0 hj0]
    rw [states3D_succ (rosslerDerivative a b c) dt j (rx0, ry0, rz0) 0]
    congr 1
    push_cast
    ring

theorem claim_C5_points_follow_rk4_recurrence_witness :
    1 ≤ 1 ∧ ((1 : ℤ) ≤ 2) ∧
    ((solveLorenz 10 28 (8 / 3) 1 1 1 (1 / 100) 2).getD 1 (0, 0, 0) =
      rk4Step3D (lorenzDerivative 10 28 (8 / 3)) (((1 : ℚ) - 1) * (1 / 100))
        ((solveLorenz 10 28 (8 / 3) 1 1 1 (1 / 100) 2).getD (1 - 1) (0, 0, 0))
        (1 / 100) ∧
     (solveVanDerPol 1 2 0 (1 / 100) 2).getD 1 (0, 0, 0) =
      lift3 (rk4Step2D (vanDerPolDerivative 1) (((1 : ℚ) - 1) * (1 / 100))
        (((solveVanDerPol 1 2 0 (1 / 100) 2).getD (1 - 1) (0, 0, 0)).1,
         ((solveVanDerPol 1 2 0 (1 / 100) 2).getD (1 - 1) (0, 0, 0)).2.1)
        (1 / 100)) ∧
     (solveDampedPendulum (fun q => q) (1 / 10) 1 1 0 (1 / 100) 2).getD 1
        (0, 0, 0) =
      lift3 (rk4Step2D (dampedPendulumDerivative (fun q => q) (1 / 10) 1)
        (((1 : ℚ) - 1) * (1 / 100))
        (((solveDampedPendulum (fun q => q) (1 / 10) 1 1 0 (1 / 100) 2).getD
            (1 - 1) (0, 0, 0)).1,
         ((solveDampedPendulum (fun q => q) (1 / 10) 1 1 0 (1 / 100) 2).getD
            (1 - 1) (0, 0, 0)).2.1)
        (1 / 100)) ∧
     (solveRossler (1 / 5) (1 / 5) (57 / 10) 1 1 1 (1 / 100) 2).getD 1
        (0, 0, 0) =
      rk4Step3D (rosslerDerivative (1 / 5) (1 / 5) (57 / 10))
        (((1 : ℚ) - 1) * (1 / 100))
        ((solveRossler (1 / 5) (1 / 5) (57 / 10) 1 1 1 (1 / 100) 2).getD
          (1 - 1) (0, 0, 0))
        (1 / 100)) :=
  ⟨by decide, by decide,
    claim_C5_points_follow_rk4_recurrence 10 28 (8 / 3) 1 1 1 1 2 0
      (fun q => q) (1 / 10) 1 1 0 (1 / 5) (1 / 5) (57 / 10) 1 1 1 (1 / 100) 2 1
      (by decide) (by decide)⟩

lemma restart3D (f : DerivativeFn3D)
    (hf : ∀ (t1 t2 : ℚ) (y : Vec3), f t1 y = f t2 y) (s : Vec3) (dt : ℚ)
    (n i : ℕ) (h : i ≤ n) :
    states3D f s 0 dt i :: solveSteps3D f (states3D f s 0 dt i) 0 dt (n - i) =
      (s :: solveSteps3D f s 0 dt n).drop i := by
  rw [solveSteps3D_drop f dt i n s 0 h]
  rw [solveSteps3D_time_indep f hf dt (n - i) (states3D f s 0 dt i) 0
    (0 + (i : ℚ) * dt)]

lemma restart2D (f : DerivativeFn2D)
    (hf : ∀ (t1 t2 : ℚ) (y : Vec2), f t1 y = f t2 y) (s : Vec2) (dt : ℚ)
    (n i : ℕ) (h : i ≤ n) :
    lift3 (states2D f s 0 dt i) ::
        solveSteps2D f (states2D f s 0 dt i) 0 dt (n - i) =
      (lift3 s :: solveSteps2D f s 0 dt n).drop i := by
  rw [solveSteps2D_drop f dt i n s 0 h]
  rw [solveSteps2D_time_indep f hf dt (n - i) (states2D f s 0 dt i) 0
    (0 + (i : ℚ) * dt)]

/-- Claim C10: restart property.  For every system, non-negative `steps`
and `0 <= i <= steps`, re-invoking the same solve function with initial
state equal to `trajectory[i]` (its first two coordinates for the
2-dimensional systems) and step count `steps - i`, all parameters and
`dt` unchanged, returns exactly the suffix of the trajectory from index
`i`; all four derivative functions ignore their time argument, so the
differing accumulated times cannot affect the computed states. -/
theorem claim_C10_restart_reproduces_suffix
    (sigma rho beta x0 y0 z0 mu vx0 vy0 : ℚ) (sin : ℚ → ℚ)
    (gamma omega0 theta0 omegaInit a b c rx0 ry0 rz0 dt : ℚ)
    (steps : ℤ) (i : ℕ) (hs : 0 ≤ steps) (hi : (i : ℤ) ≤ steps) :
    solveLorenz sigma rho beta
        ((solveLorenz sigma rho beta x0 y0 z0 dt steps).getD i (0, 0, 0)).1
        ((solveLorenz sigma rho beta x0 y0 z0 dt steps).getD i (0, 0, 0)).2.1
        ((solveLorenz sigma rho beta x0 y0 z0 dt steps).getD i (0, 0, 0)).2.2
        dt (steps - i) =
      (solveLorenz sigma rho beta x0 y0 z0 dt steps).drop i ∧
    solveVanDerPol mu
        ((solveVanDerPol mu vx0 vy0 dt steps).getD i (0, 0, 0)).1
        ((solveVanDerPol mu vx0 vy0 dt steps).getD i (0, 0, 0)).2.1
        dt (steps - i) =
      (solveVanDerPol mu vx0 vy0 dt steps).drop i ∧
    solveDampedPendulum sin gamma omega0
        ((solveDampedPendulum sin gamma omega0 theta0 omegaInit dt steps).getD
          i (0, 0, 0)).1
        ((solveDampedPendulum sin gamma omega0 theta0 omegaInit dt steps).getD
          i (0, 0, 0)).2.1
        dt (steps - i) =
      (solveDampedPendulum sin gamma omega0 theta0 omegaInit dt steps).drop i ∧
    solveRossler a b c
        ((solveRossler a b c rx0 ry0 rz0 dt steps).getD i (0, 0, 0)).1
        ((solveRossler a b c rx0 ry0 rz0 dt steps).getD i (0, 0, 0)).2.1
        ((solveRossler a b c rx0 ry0 rz0 dt steps).getD i (0, 0, 0)).2.2
        dt (steps - i) =
      (solveRossler a b c rx0 ry0 rz0 dt steps).drop i := by
  have hin : i ≤ steps.toNat := by omega
  have htn : (steps - (i : ℤ)).toNat = steps.toNat - i := by omega
  refine ⟨?_, ?_, ?_, ?_⟩
  · simp only [solveLorenz]
    rw [solveSteps3D_getD (lorenzDerivative sigma rho beta) dt (0, 0, 0)
      i steps.toNat (x0, y0, z0) 0 hin]
    rw [vec3_eta, htn]
    exact restart3D (lorenzDerivative sigma rho beta) (fun _ _ _ => rfl)
      (x0, y0, z0) dt steps.toNat i hin
  · simp only [solveVanDerPol]
    rw [solveSteps2D_getD (vanDerPolDerivative mu) dt (0, 0, 0)
      i steps.toNat (vx0, vy0) 0 hin]
    rw [lift3_proj, htn]
    exact restart2D (vanDerPolDerivative mu) (fun _ _ _ => rfl)
      (vx0, vy0) dt steps.toNat i hin
  · simp only [solveDampedPendulum]
    rw [solveSteps2D_getD (dampedPendulumDerivative sin gamma omega0) dt
      (0, 0, 0) i steps.toNat (theta0, omegaInit) 0 hin]
    rw [lift3_proj, htn]
    exact restart2D (dampedPendulumDerivative sin gamma omega0)
      (fun _ _ _ => rfl) (theta0, omegaInit) dt steps.toNat i hin
  · simp only [solveRossler]
    rw [solveSteps3D_getD (rosslerDerivative a b c) dt (0, 0, 0)
      i steps.toNat (rx0, ry0, rz0) 0 hin]
    rw [vec3_eta, htn]
    exact restart3D (rosslerDerivative a b c) (fun _ _ _ => rfl)
      (rx0, ry0, rz0) dt steps.toNat i hin

theorem claim_C10_restart_reproduces_suffix_witness :
    (0 : ℤ) ≤ 2 ∧ ((1 : ℤ) ≤ 2) ∧
    (solveLorenz 10 28 (8 / 3)
        ((solveLorenz 10 28 (8 / 3) 1 1 1 (1 / 100) 2).getD 1 (0, 0, 0)).1
        ((solveLorenz 10 28 (8 / 3) 1 1 1 (1 / 100) 2).getD 1 (0, 0, 0)).2.1
        ((solveLorenz 10 28 (8 / 3) 1 1 1 (1 / 100) 2).getD 1 (0, 0, 0)).2.2
        (1 / 100) (2 - (1 : ℕ)) =
      (solveLorenz 10 28 (8 / 3) 1 1 1 (1 / 100) 2).drop 1 ∧
     solveVanDerPol 1
        ((solveVanDerPol 1 2 0 (1 / 100) 2).getD 1 (0, 0, 0)).1
        ((solveVanDerPol 1 2 0 (1 / 100) 2).getD 1 (0, 0, 0)).2.1
        (1 / 100) (2 - (1 : ℕ)) =
      (solveVanDerPol 1 2 0 (1 / 100) 2).drop 1 ∧
     solveDampedPendulum (fun q => q) (1 / 10) 1
        ((solveDampedPendulum (fun q => q) (1 / 10) 1 1 0 (1 / 100) 2).getD 1
          (0, 0, 0)).1
        ((solveDampedPendulum (fun q => q) (1 / 10) 1 1 0 (1 / 100) 2).getD 1
          (0, 0, 0)).2.1
        (1 / 100) (2 - (1 : ℕ)) =
      (solveDampedPendulum (fun q => q) (1 / 10) 1 1 0 (1 / 100) 2).drop 1 ∧
     solveRossler (1 / 5) (1 / 5) (57 / 10)
        ((solveRossler (1 / 5) (1 / 5) (57 / 10) 1 1 1 (1 / 100) 2).getD 1
          (0, 0, 0)).1
        ((solveRossler (1 / 5) (1 / 5) (57 / 10) 1 1 1 (1 / 100) 2).getD 1
          (0, 0, 0)).2.1
        ((solveRossler (1 / 5) (1 / 5) (57 / 10) 1 1 1 (1 / 100) 2).getD 1
          (0, 0, 0)).2.2
        (1 / 100) (2 - (1 : ℕ)) =
      (solveRossler (1 / 5) (1 / 5) (57 / 10) 1 1 1 (1 / 100) 2).drop 1) :=
  ⟨by decide, by decide,
    claim_C10_restart_reproduces_suffix 10 28 (8 / 3) 1 1 1 1 2 0
      (fun q => q) (1 / 10) 1 1 0 (1 / 5) (1 / 5) (57 / 10) 1 1 1 (1 / 100) 2 1
      (by decide) (by decide)⟩

end Mathviz
